import Mathlib

/-!
Shallow embedding of the peer-to-peer file-transfer core of the
`wenjianchuanshu` repository (src/App.tsx, src/types.ts including the
Gemini service module).

State mutation in the source happens through React state updaters.  The
embedding models each updater as a pure function on the corresponding
state (device directory `List ConnectedDevice`, file collection
`List TransferFile`), and models handlers that issue several sequential
`updateFileState` calls as emitting an explicit list of updates that are
then folded over the file collection.  External effects (the transport's
`send`, the Gemini service, `file.text()`, `Math.random`) are modelled as
oracles passed in as parameters.
-/

namespace Wenjianchuanshu

/-- Media classification of a file (enum `FileType` in src/types.ts). -/
inductive FileType where
  | IMAGE
  | TEXT
  | PDF
  | VIDEO
  | UNKNOWN
deriving DecidableEq, Repr

/-- Kind of peer device (enum `DeviceType` in src/types.ts). -/
inductive DeviceType where
  | ANDROID
  | IOS
  | WINDOWS
  | MAC
deriving DecidableEq, Repr

/-- Liveness of a registered device (`ConnectedDevice.status` in src/types.ts). -/
inductive DeviceStatus where
  | online
  | transferring
  | offline
deriving DecidableEq, Repr

/-- Transfer lifecycle of a file (`TransferStatus` in src/types.ts). -/
inductive TransferStatus where
  | queued
  | sending
  | completed
  | failed
  | received
deriving DecidableEq, Repr

/-- Analysis lifecycle of a file (`TransferFile.analysisStatus` in src/types.ts). -/
inductive AnalysisStatus where
  | pending
  | analyzing
  | completed
  | failed
  | skipped
deriving DecidableEq, Repr

/-- Result of the external analysis (`SmartMetaData` in src/types.ts). -/
structure SmartMetaData where
  summary : Option String := none
  tags : Option (List String) := none
  suggestedAction : Option String := none
  language : Option String := none
deriving DecidableEq, Repr

/-- Raw browser `File`/`Blob` value: name, declared mime type, byte size and
content bytes.  Object URLs derived from it are opaque handles outside the
model. -/
structure RawFile where
  name : String := ""
  mimeType : String := ""
  size : Nat := 0
  content : List Nat := []
deriving DecidableEq, Repr

/-- A registered device (`ConnectedDevice` in src/types.ts).  The PeerJS
connection handle is opaque; only its presence matters to the core. -/
structure ConnectedDevice where
  id : String
  name : String
  type : DeviceType
  status : DeviceStatus
  connection : Option Unit := none
deriving DecidableEq, Repr

/-- A file tracked by the transfer manager (`TransferFile` in src/types.ts). -/
structure TransferFile where
  id : String
  fileObject : RawFile
  name : String
  size : Nat
  type : FileType
  url : String := ""
  timestamp : Nat
  fromDevice : String
  analysisStatus : AnalysisStatus
  transferStatus : TransferStatus
  progress : Option Nat := none
  metaData : Option SmartMetaData := none
deriving DecidableEq, Repr

/-- Payload of a `HANDSHAKE` wire message. -/
structure HandshakePayload where
  name : String
  type : DeviceType
deriving DecidableEq, Repr

/-- The `meta` object of a `FILE_CHUNK` wire message. -/
structure FileMeta where
  id : String
  name : String
  type : String
  size : Nat
deriving DecidableEq, Repr

/-- Payload of a `FILE_CHUNK` wire message. -/
structure FileChunkPayload where
  meta : FileMeta
  blob : RawFile
deriving DecidableEq, Repr

/-- Wire protocol messages (`P2PMessage` in src/types.ts).  `FILE_META` and
`FILE_END` are reserved in the type vocabulary but never handled. -/
inductive P2PMessage where
  | HANDSHAKE (payload : HandshakePayload)
  | FILE_META
  | FILE_CHUNK (payload : FileChunkPayload)
  | FILE_END
deriving DecidableEq, Repr

/-- App-level state touched by the protocol handlers in src/App.tsx. -/
structure AppState where
  devices : List ConnectedDevice
  files : List TransferFile
  activeDeviceId : Option String
deriving DecidableEq, Repr

/-- Character-level prefix test standing in for `String.startsWith` (whose
core implementation does not reduce inside the kernel). -/
def strStartsWith (s p : String) : Bool := p.data.isPrefixOf s.data

/-- Character-level suffix test standing in for `String.endsWith`. -/
def strEndsWith (s p : String) : Bool := p.data.reverse.isPrefixOf s.data.reverse

/-- Media classification from declared mime type and filename
(`determineFileType` in src/App.tsx). -/
def determineFileType (mimeType : String) (name : String) : FileType :=
  bif strStartsWith mimeType "image/" then .IMAGE
  else bif strStartsWith mimeType "text/" || mimeType == "application/json"
      || strEndsWith name ".md" || strEndsWith name ".txt" then .TEXT
  else bif mimeType == "application/pdf" then .PDF
  else bif strStartsWith mimeType "video/" then .VIDEO
  else .UNKNOWN

/-- Classification rule as worded by the spec (section 4.3 Enqueue): images →
Image; `text/*`, `application/json`, or `.md`/`.txt` suffix → Text;
`application/pdf` → Pdf; `video/*` → Video; else Unknown.  Stated separately
from `determineFileType` so the two can be compared. -/
def specClassify (mimeType : String) (name : String) : FileType :=
  bif strStartsWith mimeType "image/" then .IMAGE
  else bif strStartsWith mimeType "text/" || mimeType == "application/json"
      || strEndsWith name ".md" || strEndsWith name ".txt" then .TEXT
  else bif mimeType == "application/pdf" then .PDF
  else bif strStartsWith mimeType "video/" then .VIDEO
  else .UNKNOWN

/-- JavaScript `x || y` on an optional string: `undefined` and the empty
string are both falsy. -/
def jsOrString (o : Option String) (dflt : String) : String :=
  match o with
  | none => dflt
  | some s => if s = "" then dflt else s

/-- JavaScript `prev || peer` used in `setActiveDeviceId(prev => prev || conn.peer)`. -/
def jsOrId (prev : Option String) (peer : String) : Option String :=
  match prev with
  | none => some peer
  | some p => if p = "" then some peer else some p

/-- Device-directory updater run on receipt of a `HANDSHAKE` message
(the `setDevices` updater in the `HANDSHAKE` case of `handleIncomingData`,
src/App.tsx lines 76-90): if an entry with the connection id already exists
the directory is returned unchanged, otherwise a fresh Online entry holding
the connection handle is appended. -/
def handshakeStep (devices : List ConnectedDevice) (peer : String)
    (payload : HandshakePayload) : List ConnectedDevice :=
  if devices.any (fun d => d.id == peer) then devices
  else devices ++ [{ id := peer, name := payload.name, type := payload.type,
                     status := .online, connection := some () }]

/-- Device-directory updater run on a transport `close` event
(`setupConnection` in src/App.tsx lines 120-123): the entry for the closed
connection id has its status set to offline; nothing is removed. -/
def closeStep (devices : List ConnectedDevice) (peer : String) :
    List ConnectedDevice :=
  devices.map (fun d => if d.id == peer then { d with status := .offline } else d)

/-- The two events that mutate the device directory in src/App.tsx:
`setDevices` is called only in the `HANDSHAKE` handler and in the connection
`close` handler. -/
inductive DeviceEvent where
  | handshakeEv (peer : String) (payload : HandshakePayload)
  | closeEv (peer : String)
deriving DecidableEq, Repr

/-- Combined device-directory transition over the two mutating events. -/
def devicesStep (devices : List ConnectedDevice) : DeviceEvent → List ConnectedDevice
  | .handshakeEv peer payload => handshakeStep devices peer payload
  | .closeEv peer => closeStep devices peer

/-- Sender display-name resolution in the `FILE_CHUNK` handler
(src/App.tsx line 94): `devicesRef.current.find(d => d.id === conn.peer)?.name
|| 'Unknown Device'`.  Note JavaScript `||`: an entry whose name is the empty
string also falls back to the literal. -/
def senderName (devices : List ConnectedDevice) (peer : String) : String :=
  jsOrString ((devices.find? (fun d => d.id == peer)).map (fun d => d.name))
    "Unknown Device"

/-- TransferFile constructed by the `FILE_CHUNK` handler
(src/App.tsx lines 92-107). -/
def receiveFile (devices : List ConnectedDevice) (peer : String)
    (meta : FileMeta) (blob : RawFile) (now : Nat) : TransferFile :=
  { id := meta.id
    fileObject := { name := meta.name, mimeType := meta.type,
                    size := blob.size, content := blob.content }
    name := meta.name
    size := meta.size
    type := determineFileType meta.type meta.name
    url := ""
    timestamp := now
    fromDevice := senderName devices peer
    analysisStatus := .pending
    transferStatus := .received }

/-- Inbound message dispatcher (`handleIncomingData` in src/App.tsx).  Returns
the new app state together with the file handed to the analysis coordinator
(`processReceivedFile`), if any.  Unhandled message types fall through the
switch and change nothing. -/
def handleIncomingData (s : AppState) (msg : P2PMessage) (peer : String)
    (now : Nat) : AppState × Option TransferFile :=
  match msg with
  | .HANDSHAKE payload =>
      ({ devices := handshakeStep s.devices peer payload
         files := s.files
         activeDeviceId := jsOrId s.activeDeviceId peer }, none)
  | .FILE_CHUNK payload =>
      let rf := receiveFile s.devices peer payload.meta payload.blob now
      ({ s with files := rf :: s.files }, some rf)
  | _ => (s, none)

/-- A `Partial<TransferFile>` update object as passed to `updateFileState`
(src/App.tsx line 53): `none` means the key is absent from the update. -/
structure FileUpdates where
  id : Option String := none
  fileObject : Option RawFile := none
  name : Option String := none
  size : Option Nat := none
  type : Option FileType := none
  url : Option String := none
  timestamp : Option Nat := none
  fromDevice : Option String := none
  analysisStatus : Option AnalysisStatus := none
  transferStatus : Option TransferStatus := none
  progress : Option Nat := none
  metaData : Option SmartMetaData := none
deriving DecidableEq, Repr

/-- JavaScript object spread `{ ...f, ...u }` for a file and an update. -/
def applyUpdates (f : TransferFile) (u : FileUpdates) : TransferFile :=
  { id := u.id.getD f.id
    fileObject := u.fileObject.getD f.fileObject
    name := u.name.getD f.name
    size := u.size.getD f.size
    type := u.type.getD f.type
    url := u.url.getD f.url
    timestamp := u.timestamp.getD f.timestamp
    fromDevice := u.fromDevice.getD f.fromDevice
    analysisStatus := u.analysisStatus.getD f.analysisStatus
    transferStatus := u.transferStatus.getD f.transferStatus
    progress := u.progress.or f.progress
    metaData := u.metaData.or f.metaData }

/-- Per-file state update (`updateFileState` in src/App.tsx lines 53-55):
every file whose id matches receives the update, every other file is kept
as-is. -/
def updateFileState (files : List TransferFile) (id : String)
    (u : FileUpdates) : List TransferFile :=
  files.map (fun f => if f.id == id then applyUpdates f u else f)

/-- An update touching only the transfer/analysis state machines: all other
keys are absent.  Every `updateFileState` call site in src/App.tsx passes
such an update. -/
def isStateUpdate (u : FileUpdates) : Prop :=
  u.id = none ∧ u.fileObject = none ∧ u.name = none ∧ u.size = none ∧
  u.type = none ∧ u.url = none ∧ u.timestamp = none ∧ u.fromDevice = none ∧
  u.progress = none

/-- Update object `{ transferStatus: s }`. -/
def updTransfer (s : TransferStatus) : FileUpdates := { transferStatus := some s }

/-- Update object `{ analysisStatus: s }`. -/
def updAnalysis (s : AnalysisStatus) : FileUpdates := { analysisStatus := some s }

/-- Sequential application of emitted `updateFileState` calls to the file
collection (the React updater queue applies them in order). -/
def applyFileUpdates (files : List TransferFile)
    (upds : List (String × FileUpdates)) : List TransferFile :=
  upds.foldl (fun fs u => updateFileState fs u.1 u.2) files

/-- Sequential application of transfer-status-only updates. -/
def applyTransferUpdates (files : List TransferFile)
    (upds : List (String × TransferStatus)) : List TransferFile :=
  upds.foldl (fun fs u => updateFileState fs u.1 (updTransfer u.2)) files

/-- Last transfer status written for a given file id by a sequence of
transfer-state updates, with default `d` when the sequence never touches the
id.  Characterizes the net effect of `applyTransferUpdates` per file. -/
def lastTransferStatus (upds : List (String × TransferStatus)) (id : String)
    (d : TransferStatus) : TransferStatus :=
  upds.foldl (fun acc u => if u.1 == id then u.2 else acc) d

/-- Outcome of one round trip through the external Gemini service: either the
full pipeline succeeds with parsed metadata, or anything along it fails
(network rejection, missing response text, unparsable JSON). -/
inductive AnalysisOutcome where
  | success (m : SmartMetaData)
  | failure
deriving DecidableEq, Repr

/-- Image analysis (`analyzeImage` in the Gemini service module).  Every
failure is caught inside the function and turned into a fallback metadata
object; the promise never rejects. -/
def analyzeImage (o : AnalysisOutcome) : SmartMetaData :=
  match o with
  | .success m => m
  | .failure =>
      { summary := some "Analysis failed. Please try again."
        tags := some []
        suggestedAction := some "Retry" }

/-- Text analysis (`analyzeText` in the Gemini service module).  Every failure
is caught inside the function and turned into a fallback metadata object; the
promise never rejects. -/
def analyzeText (o : AnalysisOutcome) : SmartMetaData :=
  match o with
  | .success m => m
  | .failure =>
      { summary := some "Text analysis failed."
        tags := some [] }

/-- Router for the external analysis (`processFileWithGemini` in the Gemini
service module).  `hasApiKey` is the truthiness of `process.env.API_KEY`;
`textRead` is the outcome of `file.text()` (its rejection is the only way
this promise rejects); `o` is the service-call oracle. -/
def processFileWithGemini (hasApiKey : Bool) (t : FileType)
    (textRead : Except Unit String) (o : AnalysisOutcome) :
    Except Unit SmartMetaData :=
  if !hasApiKey then
    .ok { summary := some "API Key missing. Cannot analyze.", tags := some [] }
  else if t = .IMAGE then .ok (analyzeImage o)
  else if t = .TEXT then
    match textRead with
    | .error e => .error e
    | .ok _ => .ok (analyzeText o)
  else
    .ok { summary := some "File type not supported for automatic analysis."
          tags := some [] }

/-- Analysis coordinator (`processReceivedFile` in src/App.tsx lines 57-69),
modelled as the list of `updateFileState` calls it issues, in order.  For
Image/Text files it marks the file analyzing, awaits the service router, and
marks it completed (with metadata) or failed; for every other kind it marks
the file skipped without consulting any oracle. -/
def processReceivedFile (f : TransferFile) (hasApiKey : Bool)
    (textRead : Except Unit String) (o : AnalysisOutcome) :
    List (String × FileUpdates) :=
  if f.type = .IMAGE ∨ f.type = .TEXT then
    match processFileWithGemini hasApiKey f.type textRead o with
    | .ok m =>
        [(f.id, updAnalysis .analyzing),
         (f.id, { analysisStatus := some .completed, metaData := some m })]
    | .error _ =>
        [(f.id, updAnalysis .analyzing), (f.id, updAnalysis .failed)]
  else [(f.id, updAnalysis .skipped)]

/-- Sequence of analysis statuses a file is driven through by the analysis
coordinator (after its initial `pending`). -/
def analysisStatusTrace (f : TransferFile) (hasApiKey : Bool)
    (textRead : Except Unit String) (o : AnalysisOutcome) :
    List AnalysisStatus :=
  (processReceivedFile f hasApiKey textRead o).filterMap
    (fun u => u.2.analysisStatus)

/-- One TransferFile built by local upload (`handleFileUpload` in src/App.tsx
lines 217-228); `freshId` stands for the `Math.random()`-derived id. -/
def mkUploadFile (raw : RawFile) (freshId : String) (now : Nat) : TransferFile :=
  { id := freshId
    fileObject := raw
    name := raw.name
    size := raw.size
    type := determineFileType raw.mimeType raw.name
    url := ""
    timestamp := now
    fromDevice := "Me"
    analysisStatus := .pending
    transferStatus := .queued }

/-- Local upload (`handleFileUpload` in src/App.tsx lines 216-236): the new
files, in upload order with their fresh ids, are prepended as a block to the
file collection; each new file is then handed to the analysis coordinator.
Returns the new file collection and the list of files handed to analysis. -/
def handleFileUpload (rawFiles : List RawFile) (freshIds : List String)
    (now : Nat) (files : List TransferFile) :
    List TransferFile × List TransferFile :=
  let newFiles := List.zipWith (fun raw i => mkUploadFile raw i now) rawFiles freshIds
  (newFiles ++ files, newFiles)

/-- FILE_CHUNK payload constructed by the send loop (src/App.tsx lines
253-264): metadata echoes the file's id, name, mime type and size; the blob
is the file object itself. -/
def mkFileChunkPayload (f : TransferFile) : FileChunkPayload :=
  { meta := { id := f.id, name := f.name, type := f.fileObject.mimeType,
              size := f.size }
    blob := f.fileObject }

/-- Selection predicate of the send loop (src/App.tsx line 245). -/
def sendEligible (f : TransferFile) : Bool :=
  f.fromDevice == "Me" && f.transferStatus == .queued

/-- Target-device lookup of `handleSendFiles` (src/App.tsx line 239). -/
def lookupActive (devices : List ConnectedDevice)
    (activeDeviceId : Option String) : Option ConnectedDevice :=
  match activeDeviceId with
  | none => none
  | some a => devices.find? (fun d => d.id == a)

/-- Updates issued synchronously by the send loop for one selected file:
mark it sending, attempt the transport send, and on a synchronous throw mark
it failed (src/App.tsx lines 248-273). -/
def sendSyncUpdates (toSend : List TransferFile) (sendOk : String → Bool) :
    List (String × TransferStatus) :=
  toSend.flatMap (fun f =>
    (f.id, TransferStatus.sending) ::
      (if sendOk f.id then [] else [(f.id, TransferStatus.failed)]))

/-- Updates issued by the optimistic-completion timers, which fire after the
synchronous loop: each successfully submitted file is marked completed
(src/App.tsx lines 267-269). -/
def sendTimerUpdates (toSend : List TransferFile) (sendOk : String → Bool) :
    List (String × TransferStatus) :=
  (toSend.filter (fun f => sendOk f.id)).map
    (fun f => (f.id, TransferStatus.completed))

/-- Send loop body once a connected target device is found: select the queued
"Me" files; if none, do nothing; otherwise emit the per-file state updates
(synchronous ones, then the timer ones) and one FILE_CHUNK submission per
selected file.  `sendOk id` tells whether the transport `send` for that
file's id returned normally or threw synchronously. -/
def sendSelected (files : List TransferFile) (sendOk : String → Bool) :
    List (String × TransferStatus) × List FileChunkPayload :=
  if (files.filter sendEligible).isEmpty then ([], [])
  else (sendSyncUpdates (files.filter sendEligible) sendOk
          ++ sendTimerUpdates (files.filter sendEligible) sendOk,
        (files.filter sendEligible).map mkFileChunkPayload)

/-- Outbound send (`handleSendFiles` in src/App.tsx lines 238-275): guard on
an active device with a connection handle, then run the send loop.  Returns
the emitted transfer-state updates and the FILE_CHUNK submissions, in order. -/
def handleSendFiles (devices : List ConnectedDevice)
    (activeDeviceId : Option String) (files : List TransferFile)
    (sendOk : String → Bool) :
    List (String × TransferStatus) × List FileChunkPayload :=
  match lookupActive devices activeDeviceId with
  | none => ([], [])
  | some dev =>
    match dev.connection with
    | none => ([], [])
    | some _ => sendSelected files sendOk

/-- The Device entry created by the first handshake from a connection id. -/
def handshakeEntry (peer : String) (payload : HandshakePayload) : ConnectedDevice :=
  { id := peer, name := payload.name, type := payload.type,
    status := .online, connection := some () }

/-- Concrete sample device used by witnesses. -/
def exDevice : ConnectedDevice :=
  { id := "a", name := "A", type := .MAC, status := .online, connection := some () }

/-- Concrete sample locally-uploaded text file used by witnesses. -/
def exFile : TransferFile :=
  { id := "f1", fileObject := { name := "a.txt", mimeType := "text/plain", size := 3 },
    name := "a.txt", size := 3, type := .TEXT, timestamp := 0, fromDevice := "Me",
    analysisStatus := .pending, transferStatus := .queued }

/-- Concrete sample received image file used by witnesses and counterexamples. -/
def exImageFile : TransferFile :=
  { id := "f2", fileObject := { name := "p.png", mimeType := "image/png", size := 5 },
    name := "p.png", size := 5, type := .IMAGE, timestamp := 0, fromDevice := "dev",
    analysisStatus := .pending, transferStatus := .received }

/-- Concrete device registered with an empty display name, used by the C6
counterexample. -/
def exEmptyNameDevice : ConnectedDevice :=
  { id := "p1", name := "", type := .WINDOWS, status := .online, connection := some () }

/-- Concrete FILE_CHUNK metadata used by witnesses and counterexamples. -/
def exMeta : FileMeta :=
  { id := "i1", name := "x.bin", type := "application/octet-stream", size := 4 }

lemma handshakeStep_of_mem {devices : List ConnectedDevice} {peer : String}
    (payload : HandshakePayload) (h : ∃ x ∈ devices, x.id = peer) :
    handshakeStep devices peer payload = devices := by
  unfold handshakeStep
  rw [if_pos]
  rw [List.any_eq_true]
  obtain ⟨x, hx, hid⟩ := h
  exact ⟨x, hx, by simpa using hid⟩

lemma handshakeStep_of_not_mem {devices : List ConnectedDevice} {peer : String}
    (payload : HandshakePayload) (h : ∀ x ∈ devices, x.id ≠ peer) :
    handshakeStep devices peer payload = devices ++ [handshakeEntry peer payload] := by
  unfold handshakeStep handshakeEntry
  rw [if_neg]
  simp only [List.any_eq_true, beq_iff_eq, not_exists, not_and]
  exact h

lemma foldl_handshakeStep_of_mem {peer : String} (ps : List HandshakePayload)
    (devices : List ConnectedDevice) (h : ∃ x ∈ devices, x.id = peer) :
    ps.foldl (fun d p => handshakeStep d peer p) devices = devices := by
  induction ps with
  | nil => rfl
  | cons p ps ih =>
      simp only [List.foldl_cons, handshakeStep_of_mem p h]
      exact ih

/-- C1.  Handshake idempotence: starting from a directory with no entry for
`peer`, any nonempty sequence of HANDSHAKE messages from `peer` leaves the
directory with exactly one entry for `peer`; the first handshake appends the
Online entry, and a handshake for an id already registered returns the
directory unchanged. -/
theorem handshake_idempotence (d0 : List ConnectedDevice) (peer : String)
    (ps : List HandshakePayload) (h0 : ∀ x ∈ d0, x.id ≠ peer) (hne : ps ≠ []) :
    (ps.foldl (fun d p => handshakeStep d peer p) d0).countP
        (fun d => d.id == peer) = 1
    ∧ (∀ p, handshakeStep d0 peer p = d0 ++ [handshakeEntry peer p])
    ∧ (∀ d p, (∃ x ∈ d, x.id = peer) → handshakeStep d peer p = d) := by
  refine ⟨?_, fun p => handshakeStep_of_not_mem p h0,
          fun d p h => handshakeStep_of_mem p h⟩
  cases ps with
  | nil => exact absurd rfl hne
  | cons p ps =>
      have hstep := handshakeStep_of_not_mem p h0
      have hmem : ∃ x ∈ handshakeStep d0 peer p, x.id = peer := by
        refine ⟨handshakeEntry peer p, ?_, rfl⟩
        rw [hstep]
        simp
      rw [List.foldl_cons, foldl_handshakeStep_of_mem ps _ hmem, hstep]
      rw [List.countP_append]
      have hz : d0.countP (fun d => d.id == peer) = 0 := by
        rw [List.countP_eq_zero]
        intro x hx
        simpa using h0 x hx
      simp [hz, handshakeEntry]

/-- Witness for C1 at a concrete input: one handshake from "p" into an empty
directory yields exactly one entry for "p". -/
theorem handshake_idempotence_witness :
    (([{ name := "n", type := DeviceType.WINDOWS }] : List HandshakePayload).foldl
        (fun d p => handshakeStep d "p" p) ([] : List ConnectedDevice)).countP
        (fun d => d.id == "p") = 1 :=
  (handshake_idempotence [] "p" [{ name := "n", type := DeviceType.WINDOWS }]
    (by simp) (by simp)).1

lemma closeEntry_id (d : ConnectedDevice) (peer : String) :
    (if d.id == peer then { d with status := DeviceStatus.offline } else d).id
      = d.id := by
  by_cases h : d.id = peer <;> simp [h]

/-- C9.  Liveness on close: a transport close event sets the status of the
entry for that connection id to offline, leaves every other entry untouched,
and no directory-mutating event (handshake or close) ever removes an entry:
an id present before a step is present after it, and the directory never
shrinks. -/
theorem device_directory_append_only (devices : List ConnectedDevice) :
    (∀ (e : DeviceEvent) (c : String), (∃ d ∈ devices, d.id = c) →
        ∃ d ∈ devicesStep devices e, d.id = c)
    ∧ (∀ peer, ∀ d ∈ devicesStep devices (.closeEv peer), d.id = peer →
        d.status = .offline)
    ∧ (∀ peer, ∀ d ∈ devices, d.id ≠ peer →
        d ∈ devicesStep devices (.closeEv peer))
    ∧ (∀ e : DeviceEvent, devices.length ≤ (devicesStep devices e).length) := by
  refine ⟨?_, ?_, ?_, ?_⟩
  · rintro e c ⟨d, hd, hid⟩
    cases e with
    | handshakeEv peer payload =>
        refine ⟨d, ?_, hid⟩
        show d ∈ handshakeStep devices peer payload
        unfold handshakeStep
        by_cases hany : devices.any (fun d => d.id == peer)
        · rw [if_pos hany]
          exact hd
        · rw [if_neg hany]
          exact List.mem_append_left _ hd
    | closeEv peer =>
        refine ⟨if d.id == peer then { d with status := .offline } else d, ?_, ?_⟩
        · show _ ∈ closeStep devices peer
          exact List.mem_map_of_mem _ hd
        · rw [closeEntry_id]
          exact hid
  · intro peer d hd hid
    have hd' : d ∈ closeStep devices peer := hd
    simp only [closeStep, List.mem_map] at hd'
    obtain ⟨x, hx, hxd⟩ := hd'
    by_cases hxp : x.id = peer
    · rw [← hxd]
      simp [hxp]
    · have hdx : d = x := by
        rw [← hxd]
        simp [hxp]
      rw [hdx] at hid
      exact absurd hid hxp
  · intro peer d hd hdp
    show d ∈ closeStep devices peer
    simp only [closeStep, List.mem_map]
    exact ⟨d, hd, by simp [hdp]⟩
  · intro e
    cases e with
    | handshakeEv peer payload =>
        show devices.length ≤ (handshakeStep devices peer payload).length
        unfold handshakeStep
        by_cases hany : devices.any (fun d => d.id == peer)
        · rw [if_pos hany]
        · rw [if_neg hany]
          simp
    | closeEv peer =>
        show devices.length ≤ (closeStep devices peer).length
        simp [closeStep]

/-- Witness for C9 at a concrete input: after a close event for "a", the
directory still has an entry with id "a". -/
theorem device_directory_append_only_witness :
    ∃ d ∈ devicesStep [exDevice] (.closeEv "a"), d.id = "a" :=
  (device_directory_append_only [exDevice]).1 (.closeEv "a") "a"
    ⟨exDevice, by simp, by decide⟩

/-- C10.  Frame property of `updateFileState`: a transfer/analysis state
update addresses one id; every file at a position whose id differs is
returned unchanged; the addressed file keeps its id, name, size, media kind,
payload, origin device and timestamp; an update that does not mention the
analysis fields leaves them unchanged, and one that does not mention the
transfer status leaves it unchanged. -/
theorem updateFileState_frame (files : List TransferFile) (id : String)
    (u : FileUpdates) (h : isStateUpdate u) :
    (updateFileState files id u).length = files.length
    ∧ (∀ (i : Nat) (f : TransferFile), files[i]? = some f → f.id ≠ id →
        (updateFileState files id u)[i]? = some f)
    ∧ (∀ f : TransferFile, (applyUpdates f u).id = f.id
        ∧ (applyUpdates f u).name = f.name
        ∧ (applyUpdates f u).size = f.size
        ∧ (applyUpdates f u).type = f.type
        ∧ (applyUpdates f u).fileObject = f.fileObject
        ∧ (applyUpdates f u).fromDevice = f.fromDevice
        ∧ (applyUpdates f u).timestamp = f.timestamp)
    ∧ (u.analysisStatus = none → u.metaData = none →
        ∀ f : TransferFile, (applyUpdates f u).analysisStatus = f.analysisStatus
          ∧ (applyUpdates f u).metaData = f.metaData)
    ∧ (u.transferStatus = none →
        ∀ f : TransferFile, (applyUpdates f u).transferStatus = f.transferStatus) := by
  obtain ⟨h1, h2, h3, h4, h5, h6, h7, h8, h9⟩ := h
  refine ⟨?_, ?_, ?_, ?_, ?_⟩
  · simp [updateFileState]
  · intro i f hi hne
    simp only [updateFileState, List.getElem?_map, hi, Option.map_some]
    simp [hne]
  · intro f
    simp [applyUpdates, h1, h2, h3, h4, h5, h6, h7, h8]
  · intro ha hm f
    simp [applyUpdates, ha, hm]
  · intro ht f
    simp [applyUpdates, ht]

/-- Witness for C10 at a concrete input: a `{ transferStatus: sending }`
update applied to a one-file collection preserves its length. -/
theorem updateFileState_frame_witness :
    (updateFileState [exFile] "f1" (updTransfer .sending)).length = [exFile].length :=
  (updateFileState_frame [exFile] "f1" (updTransfer .sending)
    ⟨rfl, rfl, rfl, rfl, rfl, rfl, rfl, rfl, rfl⟩).1

/-- C3.  Round trip: the FILE_CHUNK payload built by the send loop carries
`meta.size` equal to the file's size, `meta.name` equal to its name and
`meta.id` equal to its id, and parsing that payload on the receive path
yields a TransferFile with the original size, name and id. -/
theorem file_chunk_round_trip (f : TransferFile) (devices : List ConnectedDevice)
    (peer : String) (ts : Nat) :
    (mkFileChunkPayload f).meta.size = f.size
    ∧ (mkFileChunkPayload f).meta.name = f.name
    ∧ (mkFileChunkPayload f).meta.id = f.id
    ∧ (receiveFile devices peer (mkFileChunkPayload f).meta
        (mkFileChunkPayload f).blob ts).size = f.size
    ∧ (receiveFile devices peer (mkFileChunkPayload f).meta
        (mkFileChunkPayload f).blob ts).name = f.name
    ∧ (receiveFile devices peer (mkFileChunkPayload f).meta
        (mkFileChunkPayload f).blob ts).id = f.id :=
  ⟨rfl, rfl, rfl, rfl, rfl, rfl⟩

/-- Counterexample to C6 as stated: the device "p1" is registered in the
directory (so C6 requires `originDevice` to equal its stored display name,
here the empty string), yet the receive path attributes the file to the
literal "Unknown Device", because the source resolves the sender with
JavaScript `||`, for which the empty string is falsy. -/
theorem receive_origin_counterexample :
    exEmptyNameDevice.id = "p1"
    ∧ (receiveFile [exEmptyNameDevice] "p1" exMeta {} 0).fromDevice
        = "Unknown Device"
    ∧ (receiveFile [exEmptyNameDevice] "p1" exMeta {} 0).fromDevice
        ≠ exEmptyNameDevice.name := by
  refine ⟨rfl, ?_, ?_⟩ <;> decide

/-- C6 amended.  Receive path: an inbound FILE_CHUNK from connection id
`peer` yields a TransferFile with transfer state Received, analysis state
Pending, id/name/size echoed from the metadata, media kind re-classified
from the metadata, and `originDevice` equal to the display name stored in
the directory entry for `peer` when that name is non-empty, or the literal
"Unknown Device" when `peer` is unregistered or its stored name is the
empty string; the file is prepended to the collection and handed to the
analysis coordinator. -/
theorem receive_path_amended (s : AppState) (peer : String) (meta : FileMeta)
    (blob : RawFile) (ts : Nat) :
    (receiveFile s.devices peer meta blob ts).transferStatus = .received
    ∧ (receiveFile s.devices peer meta blob ts).analysisStatus = .pending
    ∧ (receiveFile s.devices peer meta blob ts).id = meta.id
    ∧ (receiveFile s.devices peer meta blob ts).name = meta.name
    ∧ (receiveFile s.devices peer meta blob ts).size = meta.size
    ∧ (receiveFile s.devices peer meta blob ts).type
        = determineFileType meta.type meta.name
    ∧ (s.devices.find? (fun d => d.id == peer) = none →
        (receiveFile s.devices peer meta blob ts).fromDevice = "Unknown Device")
    ∧ (∀ d, s.devices.find? (fun d => d.id == peer) = some d →
        (d.name ≠ "" → (receiveFile s.devices peer meta blob ts).fromDevice = d.name)
        ∧ (d.name = "" →
            (receiveFile s.devices peer meta blob ts).fromDevice = "Unknown Device"))
    ∧ handleIncomingData s (.FILE_CHUNK { meta := meta, blob := blob }) peer ts
        = ({ s with files := receiveFile s.devices peer meta blob ts :: s.files },
           some (receiveFile s.devices peer meta blob ts)) := by
  refine ⟨?_, ?_, ?_, ?_, ?_, ?_, ?_, ?_, ?_⟩
  · rfl
  · rfl
  · rfl
  · rfl
  · rfl
  · rfl
  · intro hnone
    simp [receiveFile, senderName, jsOrString, hnone]
  · intro d hd
    constructor
    · intro hne
      simp [receiveFile, senderName, jsOrString, hd, hne]
    · intro he
      simp [receiveFile, senderName, jsOrString, hd, he]
  · rfl

/-- Witness for C6 amended at a concrete input: with an empty directory, the
received file is attributed to "Unknown Device". -/
theorem receive_path_amended_witness :
    (receiveFile ([] : List ConnectedDevice) "p" exMeta {} 0).fromDevice
      = "Unknown Device" :=
  (receive_path_amended { devices := [], files := [], activeDeviceId := none }
    "p" exMeta {} 0).2.2.2.2.2.2.1 rfl

/-- C7.  Analysis state machine: a file whose media kind is Image or Text is
driven (from its initial Pending) through Analyzing to exactly Completed or
Failed; a Pdf/Video/Unknown file is driven directly to Skipped and the
coordinator consults no oracle for it; every update the coordinator issues
addresses the file's own id and never touches the transfer state. -/
theorem analysis_state_machine (f : TransferFile) (hasApiKey : Bool)
    (textRead : Except Unit String) (o : AnalysisOutcome) :
    ((f.type = .IMAGE ∨ f.type = .TEXT) →
        analysisStatusTrace f hasApiKey textRead o = [.analyzing, .completed]
        ∨ analysisStatusTrace f hasApiKey textRead o = [.analyzing, .failed])
    ∧ ((f.type = .PDF ∨ f.type = .VIDEO ∨ f.type = .UNKNOWN) →
        analysisStatusTrace f hasApiKey textRead o = [.skipped]
        ∧ ∀ (k2 : Bool) (t2 : Except Unit String) (o2 : AnalysisOutcome),
            processReceivedFile f k2 t2 o2 = processReceivedFile f hasApiKey textRead o)
    ∧ (∀ u ∈ processReceivedFile f hasApiKey textRead o,
        u.1 = f.id ∧ u.2.transferStatus = none) := by
  refine ⟨?_, ?_, ?_⟩
  · intro himg
    unfold analysisStatusTrace processReceivedFile
    rw [if_pos himg]
    cases hr : processFileWithGemini hasApiKey f.type textRead o with
    | ok m => left; simp [updAnalysis]
    | error e => right; simp [updAnalysis]
  · intro htyp
    have hno : ¬(f.type = .IMAGE ∨ f.type = .TEXT) := by
      rcases htyp with h | h | h <;> rw [h] <;> simp
    constructor
    · unfold analysisStatusTrace processReceivedFile
      rw [if_neg hno]
      simp [updAnalysis]
    · intro k2 t2 o2
      unfold processReceivedFile
      rw [if_neg hno, if_neg hno]
  · intro u hu
    unfold processReceivedFile at hu
    by_cases himg : f.type = .IMAGE ∨ f.type = .TEXT
    · rw [if_pos himg] at hu
      cases hr : processFileWithGemini hasApiKey f.type textRead o with
      | ok m =>
          rw [hr] at hu
          simp only [List.mem_cons, List.not_mem_nil, or_false] at hu
          rcases hu with h | h <;> rw [h] <;> exact ⟨rfl, rfl⟩
      | error e =>
          rw [hr] at hu
          simp only [List.mem_cons, List.not_mem_nil, or_false] at hu
          rcases hu with h | h <;> rw [h] <;> exact ⟨rfl, rfl⟩
    · rw [if_neg himg] at hu
      simp only [List.mem_cons, List.not_mem_nil, or_false] at hu
      rw [hu]
      exact ⟨rfl, rfl⟩

/-- Witness for C7 at a concrete input: a text file with a successful service
round trip is driven through Analyzing to Completed or Failed. -/
theorem analysis_state_machine_witness :
    analysisStatusTrace exFile true (.ok "hi") (.success {})
        = [.analyzing, .completed]
    ∨ analysisStatusTrace exFile true (.ok "hi") (.success {})
        = [.analyzing, .failed] :=
  (analysis_state_machine exFile true (.ok "hi") (.success {})).1 (Or.inr rfl)

/-- Counterexample to C2 as stated: with the API key missing (a credential
failure the claim covers explicitly) the image file ends with
`analysisStatus = completed` and the service layer's fallback metadata, not
`failed`: the Gemini module swallows the failure and resolves normally. -/
theorem analysis_failure_counterexample :
    ((applyFileUpdates [exImageFile]
        (processReceivedFile exImageFile false (.ok "") .failure)).map
        (fun f => f.analysisStatus) = [.completed])
    ∧ ((applyFileUpdates [exImageFile]
        (processReceivedFile exImageFile false (.ok "") .failure)).map
        (fun f => f.metaData)
        = [some { summary := some "API Key missing. Cannot analyze.",
                  tags := some [] }])
    ∧ AnalysisStatus.completed ≠ AnalysisStatus.failed := by
  refine ⟨?_, ?_, ?_⟩ <;> decide

/-- C2 amended.  For Image/Text files the analysis ends Failed exactly when
the analysis promise rejects, which happens only for a Text file with the
API key present whose content read fails; a missing API key, an Image file,
or a successful content read always ends Completed (service failures are
swallowed by the service layer, which resolves with fallback metadata), and
a completed analysis carries the metadata the service resolved with. -/
theorem analysis_failure_amended (f : TransferFile) (hasApiKey : Bool)
    (textRead : Except Unit String) (o : AnalysisOutcome)
    (himg : f.type = .IMAGE ∨ f.type = .TEXT) :
    (hasApiKey = false →
        analysisStatusTrace f hasApiKey textRead o = [.analyzing, .completed])
    ∧ (f.type = .IMAGE →
        analysisStatusTrace f hasApiKey textRead o = [.analyzing, .completed])
    ∧ (∀ str, textRead = .ok str →
        analysisStatusTrace f hasApiKey textRead o = [.analyzing, .completed])
    ∧ (hasApiKey = true → f.type = .TEXT → textRead = .error () →
        analysisStatusTrace f hasApiKey textRead o = [.analyzing, .failed])
    ∧ (∀ m, processFileWithGemini hasApiKey f.type textRead o = .ok m →
        processReceivedFile f hasApiKey textRead o
          = [(f.id, updAnalysis .analyzing),
             (f.id, { analysisStatus := some .completed, metaData := some m })]) := by
  refine ⟨?_, ?_, ?_, ?_, ?_⟩
  · intro hk
    unfold analysisStatusTrace processReceivedFile
    rw [if_pos himg]
    unfold processFileWithGemini
    rw [hk]
    simp [updAnalysis]
  · intro ht
    unfold analysisStatusTrace processReceivedFile
    rw [if_pos himg]
    unfold processFileWithGemini
    cases hasApiKey with
    | false => simp [updAnalysis]
    | true => simp [ht, updAnalysis]
  · intro str hstr
    unfold analysisStatusTrace processReceivedFile
    rw [if_pos himg]
    unfold processFileWithGemini
    cases hasApiKey with
    | false => simp [updAnalysis]
    | true =>
        rcases himg with ht | ht <;> simp [ht, hstr, updAnalysis]
  · intro hk ht htr
    unfold analysisStatusTrace processReceivedFile
    rw [if_pos himg]
    unfold processFileWithGemini
    rw [hk, ht, htr]
    simp [updAnalysis]
  · intro m hm
    unfold processReceivedFile
    rw [if_pos himg, hm]

/-- Witness for C2 amended at a concrete input: the image file with the API
key missing ends Completed. -/
theorem analysis_failure_amended_witness :
    analysisStatusTrace exImageFile false (.ok "") .failure
      = [.analyzing, .completed] :=
  (analysis_failure_amended exImageFile false (.ok "") .failure (Or.inl rfl)).1 rfl

lemma map_id_zipWith_upload (now : Nat) :
    ∀ (raws : List RawFile) (ids : List String), ids.length = raws.length →
      (List.zipWith (fun raw i => mkUploadFile raw i now) raws ids).map
        (fun f => f.id) = ids := by
  intro raws
  induction raws with
  | nil =>
      intro ids h
      rw [List.length_nil, List.length_eq_zero] at h
      rw [h]
      rfl
  | cons r rs ih =>
      intro ids h
      cases ids with
      | nil => simp at h
      | cons i is =>
          simp only [List.zipWith_cons_cons, List.map_cons]
          rw [ih is (by simpa using h)]
          rfl

/-- C8.  Enqueue: local upload prepends the new files as a block to the file
collection; the i-th new file is built from the i-th raw file and the i-th
fresh id; each new file carries the raw file's name and size, media kind
classified exactly by the spec's rule (`determineFileType` agrees with
`specClassify` everywhere, and in particular `notes.txt` with mime
`text/plain` is Text), origin "Me", transfer state Queued and analysis state
Pending; and distinct fresh ids make the new files' ids distinct. -/
theorem enqueue_local_upload (rawFiles : List RawFile) (freshIds : List String)
    (now : Nat) (files : List TransferFile)
    (hlen : freshIds.length = rawFiles.length) :
    (handleFileUpload rawFiles freshIds now files).1
        = (handleFileUpload rawFiles freshIds now files).2 ++ files
    ∧ (handleFileUpload rawFiles freshIds now files).2.length = rawFiles.length
    ∧ (∀ (i : Nat) (raw : RawFile) (idv : String),
        rawFiles[i]? = some raw → freshIds[i]? = some idv →
        (handleFileUpload rawFiles freshIds now files).2[i]?
          = some (mkUploadFile raw idv now))
    ∧ (∀ (raw : RawFile) (idv : String) (nowv : Nat),
        (mkUploadFile raw idv nowv).id = idv
        ∧ (mkUploadFile raw idv nowv).name = raw.name
        ∧ (mkUploadFile raw idv nowv).size = raw.size
        ∧ (mkUploadFile raw idv nowv).type
            = determineFileType raw.mimeType raw.name
        ∧ (mkUploadFile raw idv nowv).fromDevice = "Me"
        ∧ (mkUploadFile raw idv nowv).transferStatus = .queued
        ∧ (mkUploadFile raw idv nowv).analysisStatus = .pending)
    ∧ (∀ mt n, determineFileType mt n = specClassify mt n)
    ∧ determineFileType "text/plain" "notes.txt" = .TEXT
    ∧ (freshIds.Nodup →
        ((handleFileUpload rawFiles freshIds now files).2.map
          (fun f => f.id)).Nodup) := by
  refine ⟨rfl, ?_, ?_, ?_, ?_, ?_, ?_⟩
  · show (List.zipWith _ rawFiles freshIds).length = rawFiles.length
    rw [List.length_zipWith, hlen, Nat.min_self]
  · intro i raw idv h1 h2
    show (List.zipWith _ rawFiles freshIds)[i]? = _
    rw [List.getElem?_zipWith]
    rw [h1, h2]
  · intro raw idv nowv
    exact ⟨rfl, rfl, rfl, rfl, rfl, rfl, rfl⟩
  · intro mt n
    rfl
  · decide
  · intro hnd
    show ((List.zipWith (fun raw i => mkUploadFile raw i now) rawFiles
      freshIds).map (fun f => f.id)).Nodup
    rw [map_id_zipWith_upload now rawFiles freshIds hlen]
    exact hnd

/-- Witness for C8 at a concrete input: uploading one text file yields a
Queued "Me" file block prepended to the collection. -/
theorem enqueue_local_upload_witness :
    (handleFileUpload [{ name := "notes.txt", mimeType := "text/plain", size := 10 }]
        ["f9"] 7 []).1
      = (handleFileUpload [{ name := "notes.txt", mimeType := "text/plain", size := 10 }]
        ["f9"] 7 []).2 ++ [] :=
  (enqueue_local_upload [{ name := "notes.txt", mimeType := "text/plain", size := 10 }]
    ["f9"] 7 [] rfl).1

lemma updateFileState_transfer_map (fs : List TransferFile) (id : String)
    (s : TransferStatus) :
    updateFileState fs id (updTransfer s)
      = fs.map (fun g => if g.id == id then { g with transferStatus := s } else g) :=
  rfl

lemma applyTransferUpdates_eq_map :
    ∀ (upds : List (String × TransferStatus)) (files : List TransferFile),
      applyTransferUpdates files upds
        = files.map (fun g => upds.foldl
            (fun h u => if h.id == u.1 then { h with transferStatus := u.2 } else h)
            g) := by
  intro upds
  induction upds with
  | nil =>
      intro files
      show files = files.map (fun g => g)
      rw [List.map_id']
  | cons u us ih =>
      intro files
      show applyTransferUpdates (updateFileState files u.1 (updTransfer u.2)) us = _
      rw [ih, updateFileState_transfer_map, List.map_map]
      rfl

lemma lastTransferStatus_cons (u : String × TransferStatus)
    (us : List (String × TransferStatus)) (id : String) (d : TransferStatus) :
    lastTransferStatus (u :: us) id d
      = lastTransferStatus us id (if u.1 == id then u.2 else d) :=
  rfl

lemma lastTransferStatus_append (a b : List (String × TransferStatus))
    (id : String) (d : TransferStatus) :
    lastTransferStatus (a ++ b) id d
      = lastTransferStatus b id (lastTransferStatus a id d) := by
  simp [lastTransferStatus, List.foldl_append]

lemma foldl_transfer_eq :
    ∀ (upds : List (String × TransferStatus)) (g : TransferFile),
      upds.foldl
          (fun h u => if h.id == u.1 then { h with transferStatus := u.2 } else h) g
        = { g with transferStatus := lastTransferStatus upds g.id g.transferStatus } := by
  intro upds
  induction upds with
  | nil => intro g; rfl
  | cons u us ih =>
      intro g
      rw [List.foldl_cons, lastTransferStatus_cons]
      by_cases hc : g.id = u.1
      · have hb : (g.id == u.1) = true := beq_iff_eq.mpr hc
        have hb2 : (u.1 == g.id) = true := beq_iff_eq.mpr hc.symm
        rw [if_pos hb, ih, hb2, if_pos rfl]
      · have hb : ¬ (g.id == u.1) = true := by simp [hc]
        have hb2 : ¬ (u.1 == g.id) = true := by simp [Ne.symm hc]
        rw [if_neg hb, ih, if_neg hb2]

lemma sendSyncUpdates_keys (ts : List TransferFile) (ok : String → Bool) :
    ∀ u ∈ sendSyncUpdates ts ok, ∃ f ∈ ts, u.1 = f.id := by
  intro u hu
  unfold sendSyncUpdates at hu
  rw [List.mem_flatMap] at hu
  obtain ⟨f, hf, hm⟩ := hu
  refine ⟨f, hf, ?_⟩
  rcases List.mem_cons.mp hm with h | h
  · rw [h]
  · by_cases hok : ok f.id
    · rw [if_pos hok] at h
      exact absurd h (List.not_mem_nil u)
    · rw [if_neg hok] at h
      rw [List.mem_singleton.mp h]

lemma sendTimerUpdates_keys (ts : List TransferFile) (ok : String → Bool) :
    ∀ u ∈ sendTimerUpdates ts ok, ∃ f ∈ ts, u.1 = f.id := by
  intro u hu
  unfold sendTimerUpdates at hu
  rw [List.mem_map] at hu
  obtain ⟨f, hf, hm⟩ := hu
  exact ⟨f, List.mem_of_mem_filter hf, by rw [← hm]⟩

lemma lastTransferStatus_of_no_key :
    ∀ (upds : List (String × TransferStatus)) (id : String) (d : TransferStatus),
      (∀ u ∈ upds, u.1 ≠ id) → lastTransferStatus upds id d = d := by
  intro upds
  induction upds with
  | nil => intro id d _; rfl
  | cons u us ih =>
      intro id d h
      rw [lastTransferStatus_cons]
      have h1 : ¬ (u.1 == id) = true := by
        simp [h u (List.mem_cons_self u us)]
      rw [if_neg h1]
      exact ih id d (fun v hv => h v (List.mem_cons_of_mem u hv))

lemma lastTransferStatus_sync_mem :
    ∀ (ts : List TransferFile) (ok : String → Bool) (f : TransferFile),
      (ts.map (fun x => x.id)).Nodup → f ∈ ts → ∀ d : TransferStatus,
      lastTransferStatus (sendSyncUpdates ts ok) f.id d
        = if ok f.id then TransferStatus.sending else TransferStatus.failed := by
  intro ts
  induction ts with
  | nil => intro ok f _ hf; exact absurd hf (List.not_mem_nil f)
  | cons a rest ih =>
      intro ok f hnd hf d
      have hmapnd : (a.id :: rest.map (fun x => x.id)).Nodup := by simpa using hnd
      have hnotin : a.id ∉ rest.map (fun x => x.id) := (List.nodup_cons.mp hmapnd).1
      have hsync : sendSyncUpdates (a :: rest) ok
          = ((a.id, TransferStatus.sending) ::
              (if ok a.id then [] else [(a.id, TransferStatus.failed)]))
            ++ sendSyncUpdates rest ok := rfl
      rw [hsync, lastTransferStatus_append]
      rcases List.mem_cons.mp hf with hfa | hfr
      · subst hfa
        have hrestkeys : ∀ u ∈ sendSyncUpdates rest ok, u.1 ≠ f.id := by
          intro u hu heq
          obtain ⟨g, hg, he⟩ := sendSyncUpdates_keys rest ok u hu
          rw [he] at heq
          exact hnotin (heq ▸ List.mem_map_of_mem (fun x => x.id) hg)
        rw [lastTransferStatus_of_no_key _ _ _ hrestkeys, lastTransferStatus_cons]
        rw [show (f.id == f.id) = true from beq_self_eq_true f.id, if_pos rfl]
        by_cases hok : ok f.id
        · rw [if_pos hok, if_pos hok]
          rfl
        · rw [if_neg hok, if_neg hok, lastTransferStatus_cons]
          rw [show (f.id == f.id) = true from beq_self_eq_true f.id, if_pos rfl]
          rfl
      · have hane : a.id ≠ f.id := by
          intro he
          exact hnotin (he ▸ List.mem_map_of_mem (fun x => x.id) hfr)
        have hperA : lastTransferStatus
            ((a.id, TransferStatus.sending) ::
              (if ok a.id then [] else [(a.id, TransferStatus.failed)])) f.id d = d := by
          apply lastTransferStatus_of_no_key
          intro u hu
          rcases List.mem_cons.mp hu with h | h
          · rw [h]; exact hane
          · by_cases hok : ok a.id
            · rw [if_pos hok] at h
              exact absurd h (List.not_mem_nil u)
            · rw [if_neg hok] at h
              rw [List.mem_singleton.mp h]
              exact hane
        rw [hperA]
        exact ih ok f (List.Nodup.of_cons hmapnd) hfr d

lemma lastTransferStatus_timer_mem :
    ∀ (ts : List TransferFile) (ok : String → Bool) (f : TransferFile),
      (ts.map (fun x => x.id)).Nodup → f ∈ ts → ∀ d : TransferStatus,
      lastTransferStatus (sendTimerUpdates ts ok) f.id d
        = if ok f.id then TransferStatus.completed else d := by
  intro ts
  induction ts with
  | nil => intro ok f _ hf; exact absurd hf (List.not_mem_nil f)
  | cons a rest ih =>
      intro ok f hnd hf d
      have hmapnd : (a.id :: rest.map (fun x => x.id)).Nodup := by simpa using hnd
      have hnotin : a.id ∉ rest.map (fun x => x.id) := (List.nodup_cons.mp hmapnd).1
      have htimer : sendTimerUpdates (a :: rest) ok
          = (if ok a.id then [(a.id, TransferStatus.completed)] else [])
            ++ sendTimerUpdates rest ok := by
        by_cases hok : ok a.id
        · simp [sendTimerUpdates, List.filter_cons, hok]
        · simp [sendTimerUpdates, List.filter_cons, hok]
      rw [htimer, lastTransferStatus_append]
      rcases List.mem_cons.mp hf with hfa | hfr
      · subst hfa
        have hrestkeys : ∀ u ∈ sendTimerUpdates rest ok, u.1 ≠ f.id := by
          intro u hu heq
          obtain ⟨g, hg, he⟩ := sendTimerUpdates_keys rest ok u hu
          rw [he] at heq
          exact hnotin (heq ▸ List.mem_map_of_mem (fun x => x.id) hg)
        rw [lastTransferStatus_of_no_key _ _ _ hrestkeys]
        by_cases hok : ok f.id
        · rw [if_pos hok, if_pos hok, lastTransferStatus_cons]
          rw [show (f.id == f.id) = true from beq_self_eq_true f.id, if_pos rfl]
          rfl
        · rw [if_neg hok, if_neg hok]
          rfl
      · have hane : a.id ≠ f.id := by
          intro he
          exact hnotin (he ▸ List.mem_map_of_mem (fun x => x.id) hfr)
        have hperA : lastTransferStatus
            (if ok a.id then [(a.id, TransferStatus.completed)] else []) f.id d = d := by
          apply lastTransferStatus_of_no_key
          intro u hu
          by_cases hok : ok a.id
          · rw [if_pos hok] at hu
            rw [List.mem_singleton.mp hu]
            exact hane
          · rw [if_neg hok] at hu
            exact absurd hu (List.not_mem_nil u)
        rw [hperA]
        exact ih ok f (List.Nodup.of_cons hmapnd) hfr d

lemma lastTransferStatus_send_mem (ts : List TransferFile) (ok : String → Bool)
    (f : TransferFile) (hnd : (ts.map (fun x => x.id)).Nodup) (hf : f ∈ ts)
    (d : TransferStatus) :
    lastTransferStatus (sendSyncUpdates ts ok ++ sendTimerUpdates ts ok) f.id d
      = if ok f.id then TransferStatus.completed else TransferStatus.failed := by
  rw [lastTransferStatus_append, lastTransferStatus_sync_mem ts ok f hnd hf d,
      lastTransferStatus_timer_mem ts ok f hnd hf _]
  by_cases hok : ok f.id
  · rw [if_pos hok, if_pos hok]
  · rw [if_neg hok, if_neg hok, if_neg hok]

lemma lastTransferStatus_send_not_mem (ts : List TransferFile)
    (ok : String → Bool) (gid : String) (d : TransferStatus)
    (h : ∀ x ∈ ts, x.id ≠ gid) :
    lastTransferStatus (sendSyncUpdates ts ok ++ sendTimerUpdates ts ok) gid d
      = d := by
  rw [lastTransferStatus_append]
  rw [lastTransferStatus_of_no_key (sendSyncUpdates ts ok) gid d (fun u hu => by
    obtain ⟨g, hg, he⟩ := sendSyncUpdates_keys ts ok u hu
    rw [he]; exact h g hg)]
  exact lastTransferStatus_of_no_key (sendTimerUpdates ts ok) gid d (fun u hu => by
    obtain ⟨g, hg, he⟩ := sendTimerUpdates_keys ts ok u hu
    rw [he]; exact h g hg)

lemma sendSelected_of_nonempty (files : List TransferFile) (ok : String → Bool)
    (h : (files.filter sendEligible).isEmpty = false) :
    sendSelected files ok
      = (sendSyncUpdates (files.filter sendEligible) ok
          ++ sendTimerUpdates (files.filter sendEligible) ok,
         (files.filter sendEligible).map mkFileChunkPayload) := by
  unfold sendSelected
  rw [h]
  rfl

lemma applyTransferUpdates_send (files : List TransferFile) (ok : String → Bool)
    (hnd : (files.map (fun g => g.id)).Nodup)
    (hne : (files.filter sendEligible).isEmpty = false) :
    applyTransferUpdates files (sendSelected files ok).1
      = files.map (fun g => if sendEligible g
          then { g with transferStatus := if ok g.id
                  then TransferStatus.completed else TransferStatus.failed }
          else g) := by
  rw [sendSelected_of_nonempty files ok hne]
  rw [applyTransferUpdates_eq_map]
  simp only [foldl_transfer_eq]
  apply List.map_congr_left
  intro g hg
  have hndf : ((files.filter sendEligible).map (fun f => f.id)).Nodup :=
    hnd.sublist ((List.filter_sublist files).map _)
  by_cases hgsel : sendEligible g = true
  · have hgf : g ∈ files.filter sendEligible := List.mem_filter.mpr ⟨hg, hgsel⟩
    rw [lastTransferStatus_send_mem _ ok g hndf hgf _, if_pos hgsel]
  · have hkeys : ∀ x ∈ files.filter sendEligible, x.id ≠ g.id := by
      intro x hx heq
      have hxf : x ∈ files := List.mem_of_mem_filter hx
      have hxg : x = g := List.inj_on_of_nodup_map hnd hxf hg heq
      rw [hxg] at hx
      exact hgsel (List.mem_filter.mp hx).2
    rw [lastTransferStatus_send_not_mem _ ok g.id _ hkeys, if_neg hgsel]

lemma find?_map_id_fixed (h : TransferFile → TransferFile)
    (hid : ∀ g, (h g).id = g.id) :
    ∀ (l : List TransferFile), (l.map (fun f => f.id)).Nodup → ∀ f ∈ l,
      (l.map h).find? (fun g => g.id == f.id) = some (h f) := by
  intro l
  induction l with
  | nil => intro _ f hf; exact absurd hf (List.not_mem_nil f)
  | cons a rest ih =>
      intro hnd f hf
      have hmapnd : (a.id :: rest.map (fun x => x.id)).Nodup := by simpa using hnd
      have hnotin : a.id ∉ rest.map (fun x => x.id) := (List.nodup_cons.mp hmapnd).1
      rw [List.map_cons]
      rcases List.mem_cons.mp hf with hfa | hfr
      · subst hfa
        rw [List.find?_cons_of_pos _ (by rw [hid f]; exact beq_self_eq_true f.id)]
      · have hane : a.id ≠ f.id := by
          intro he
          exact hnotin (he ▸ List.mem_map_of_mem (fun x => x.id) hfr)
        rw [List.find?_cons_of_neg _ (by rw [hid a]; simp [hane])]
        exact ih (List.Nodup.of_cons hmapnd) f hfr

lemma countP_id_nodup :
    ∀ (l : List TransferFile), (l.map (fun f => f.id)).Nodup → ∀ f ∈ l,
      l.countP (fun g => g.id == f.id) = 1 := by
  intro l
  induction l with
  | nil => intro _ f hf; exact absurd hf (List.not_mem_nil f)
  | cons a rest ih =>
      intro hnd f hf
      have hmapnd : (a.id :: rest.map (fun x => x.id)).Nodup := by simpa using hnd
      have hnotin : a.id ∉ rest.map (fun x => x.id) := (List.nodup_cons.mp hmapnd).1
      rw [List.countP_cons]
      rcases List.mem_cons.mp hf with hfa | hfr
      · subst hfa
        have hz : rest.countP (fun g => g.id == f.id) = 0 := by
          rw [List.countP_eq_zero]
          intro x hx hbeq
          have : x.id = f.id := beq_iff_eq.mp hbeq
          exact hnotin (this ▸ List.mem_map_of_mem (fun y => y.id) hx)
        rw [hz, if_pos (beq_self_eq_true f.id)]
      · have hane : a.id ≠ f.id := by
          intro he
          exact hnotin (he ▸ List.mem_map_of_mem (fun x => x.id) hfr)
        rw [ih (List.Nodup.of_cons hmapnd) f hfr, if_neg (by simp [hane])]

lemma handleSendFiles_of_connected (devices : List ConnectedDevice)
    (activeDeviceId : Option String) (files : List TransferFile)
    (sendOk : String → Bool) (dev : ConnectedDevice)
    (hdev : lookupActive devices activeDeviceId = some dev)
    (hconn : dev.connection.isSome = true) :
    handleSendFiles devices activeDeviceId files sendOk
      = sendSelected files sendOk := by
  obtain ⟨c, hc⟩ := Option.isSome_iff_exists.mp hconn
  unfold handleSendFiles
  rw [hdev]
  show (match dev.connection with
        | none => ([], [])
        | some _ => sendSelected files sendOk) = sendSelected files sendOk
  rw [hc]

/-- C4.  Send selection and empty no-op: with a connected target device, the
submitted FILE_CHUNK messages are exactly one per file with origin "Me" and
transfer state Queued (in collection order); every selected file receives a
transition to Sending; and when no file matches, no message is sent and the
file collection is left unchanged. -/
theorem send_selection (devices : List ConnectedDevice)
    (activeDeviceId : Option String) (files : List TransferFile)
    (sendOk : String → Bool) (dev : ConnectedDevice)
    (hdev : lookupActive devices activeDeviceId = some dev)
    (hconn : dev.connection.isSome = true) :
    (handleSendFiles devices activeDeviceId files sendOk).2
        = (files.filter (fun f => f.fromDevice == "Me"
            && f.transferStatus == TransferStatus.queued)).map mkFileChunkPayload
    ∧ (∀ f ∈ files.filter (fun f => f.fromDevice == "Me"
          && f.transferStatus == TransferStatus.queued),
        (f.id, TransferStatus.sending)
          ∈ (handleSendFiles devices activeDeviceId files sendOk).1)
    ∧ (files.filter (fun f => f.fromDevice == "Me"
          && f.transferStatus == TransferStatus.queued) = [] →
        handleSendFiles devices activeDeviceId files sendOk = ([], [])
        ∧ applyTransferUpdates files
            (handleSendFiles devices activeDeviceId files sendOk).1 = files) := by
  have hunf := handleSendFiles_of_connected devices activeDeviceId files sendOk
    dev hdev hconn
  have hpred : (fun f : TransferFile => f.fromDevice == "Me"
      && f.transferStatus == TransferStatus.queued) = sendEligible := rfl
  rw [hpred, hunf]
  by_cases hE : (files.filter sendEligible).isEmpty = true
  · have hnil : files.filter sendEligible = [] := List.isEmpty_iff.mp hE
    have hss : sendSelected files sendOk = ([], []) := by
      unfold sendSelected
      rw [if_pos hE]
    refine ⟨?_, ?_, ?_⟩
    · rw [hss, hnil]
      rfl
    · intro f hf
      rw [hnil] at hf
      exact absurd hf (List.not_mem_nil f)
    · intro _
      exact ⟨hss, by rw [hss]; rfl⟩
  · have hE' : (files.filter sendEligible).isEmpty = false := by
      revert hE
      cases (files.filter sendEligible).isEmpty <;> simp
    have hss := sendSelected_of_nonempty files sendOk hE'
    refine ⟨?_, ?_, ?_⟩
    · rw [hss]
    · intro f hf
      rw [hss]
      apply List.mem_append_left
      unfold sendSyncUpdates
      rw [List.mem_flatMap]
      exact ⟨f, hf, List.mem_cons_self _ _⟩
    · intro hnil
      rw [hnil] at hE'
      simp at hE'

/-- Witness for C4 at a concrete input: with one connected device and one
queued "Me" file, the send loop submits exactly that file's FILE_CHUNK. -/
theorem send_selection_witness :
    (handleSendFiles [exDevice] (some "a") [exFile] (fun _ => true)).2
      = ([exFile].filter (fun f => f.fromDevice == "Me"
          && f.transferStatus == TransferStatus.queued)).map mkFileChunkPayload :=
  (send_selection [exDevice] (some "a") [exFile] (fun _ => true) exDevice
    (by decide) rfl).1

/-- C5.  Per-file send failure isolation: with a connected target device and
pairwise-distinct file ids, the settled file collection maps each selected
file to Completed when its transport send returned normally and to Failed
when it threw, independently of every other file's outcome, and leaves
non-selected files untouched; the failed (resp. successful) file's entry is
exactly the original with transfer state Failed (resp. Completed); and the
loop submits exactly one FILE_CHUNK per selected file, so a failed file is
never retried. -/
theorem send_failure_isolation (devices : List ConnectedDevice)
    (activeDeviceId : Option String) (files : List TransferFile)
    (sendOk : String → Bool) (dev : ConnectedDevice) (f : TransferFile)
    (hdev : lookupActive devices activeDeviceId = some dev)
    (hconn : dev.connection.isSome = true)
    (hnd : (files.map (fun g => g.id)).Nodup)
    (hf : f ∈ files) (hsel : sendEligible f = true) :
    applyTransferUpdates files (handleSendFiles devices activeDeviceId files sendOk).1
      = files.map (fun g => if sendEligible g
          then { g with transferStatus := if sendOk g.id
                  then TransferStatus.completed else TransferStatus.failed }
          else g)
    ∧ (sendOk f.id = false →
        (applyTransferUpdates files
            (handleSendFiles devices activeDeviceId files sendOk).1).find?
            (fun g => g.id == f.id)
          = some { f with transferStatus := TransferStatus.failed })
    ∧ (sendOk f.id = true →
        (applyTransferUpdates files
            (handleSendFiles devices activeDeviceId files sendOk).1).find?
            (fun g => g.id == f.id)
          = some { f with transferStatus := TransferStatus.completed })
    ∧ (handleSendFiles devices activeDeviceId files sendOk).2.countP
        (fun m => m.meta.id == f.id) = 1 := by
  have hunf := handleSendFiles_of_connected devices activeDeviceId files sendOk
    dev hdev hconn
  have hfmem : f ∈ files.filter sendEligible := List.mem_filter.mpr ⟨hf, hsel⟩
  have hE' : (files.filter sendEligible).isEmpty = false := by
    cases h : (files.filter sendEligible).isEmpty
    · rfl
    · rw [List.isEmpty_iff.mp h] at hfmem
      exact absurd hfmem (List.not_mem_nil f)
  have hmain := applyTransferUpdates_send files sendOk hnd hE'
  have hid : ∀ g : TransferFile,
      ((fun g : TransferFile => if sendEligible g
          then { g with transferStatus := if sendOk g.id
                  then TransferStatus.completed else TransferStatus.failed }
          else g) g).id = g.id := by
    intro g
    by_cases hg : sendEligible g = true <;> simp [hg]
  have hndf : ((files.filter sendEligible).map (fun x => x.id)).Nodup :=
    hnd.sublist ((List.filter_sublist files).map _)
  refine ⟨?_, ?_, ?_, ?_⟩
  · rw [hunf]
    exact hmain
  · intro hko
    rw [hunf, hmain, find?_map_id_fixed _ hid files hnd f hf]
    simp [hsel, hko]
  · intro hok
    rw [hunf, hmain, find?_map_id_fixed _ hid files hnd f hf]
    simp [hsel, hok]
  · rw [hunf, sendSelected_of_nonempty files sendOk hE']
    show ((files.filter sendEligible).map mkFileChunkPayload).countP
        (fun m => m.meta.id == f.id) = 1
    rw [List.countP_map]
    exact countP_id_nodup (files.filter sendEligible) hndf f hfmem

/-- Witness for C5 at a concrete input: with one queued "Me" file whose
transport send throws, the settled collection holds that file marked
Failed. -/
theorem send_failure_isolation_witness :
    (applyTransferUpdates [exFile]
        (handleSendFiles [exDevice] (some "a") [exFile] (fun _ => false)).1).find?
        (fun g => g.id == exFile.id)
      = some { exFile with transferStatus := TransferStatus.failed } :=
  (send_failure_isolation [exDevice] (some "a") [exFile] (fun _ => false) exDevice
    exFile (by decide) rfl (by decide) (by decide) (by decide)).2.1 rfl

end Wenjianchuanshu
